import Mathlib

/-!
Verification development for the BScACS configuration-monitoring program
(Windows registry / macOS plist watcher with rollback, alerting and
encrypted persistence).

The definitions below are a shallow embedding of the C++ sources:

* `RegistryKey` / `PlistFile`  — the monitored-item classes
  (`registryKey.cpp` = `src/unnamed/part_004`, `plistFile.cpp`);
* `WindowsRollback` / `MacOSRollback` — the rollback managers
  (second half of `plistFile.cpp`, second half of `alert.cpp`);
* `Alert.sendAlert` — the alert dispatcher (`alert.cpp`);
* `WindowsMonitoring` / `MacOSMonitoring` — one loop iteration of
  `checkForChanges` plus `startMonitoring` / `stopMonitoring`
  (`WindowsMonitoring.cpp`, `MacOSMonitoring.cpp` = `src/unnamed/part_003`);
* `EncryptionUtils` — the AES-256-CBC + PKCS#7 + base64 pipeline of
  `EncryptionUtils.cpp` (tail of `src/unnamed/part_003`), with the external
  OpenSSL block primitive kept as an explicit parameter.

QString values are modelled as Lean `String`; the external registry/plist
resource is an `Option String` (`none` = missing file/key), read through
`QVariant::toString`, which yields the empty string when the value is
missing.  Database writes, emitted Qt signals and log lines are recorded in
result records so that theorems can speak about them.
-/

namespace Monitor

/-- `QString::toInt` semantics as used by the program: parse an optional
sign followed by decimal digits; any non-numeric string (for example
"Never") converts to `0`. -/
def qstringToInt (s : String) : Int :=
  let step : List Char → Int
    | ds => if ds ≠ [] ∧ ds.all (·.isDigit) then
        ((ds.foldl (fun acc c => acc * 10 + (c.toNat - 48)) 0 : Nat) : Int)
      else 0
  match s.data with
  | '-' :: rest => - step rest
  | '+' :: rest => step rest
  | cs => step cs

/-- The external OS resource backing one monitored item: a registry value
or a plist key.  `value = none` models a missing file / missing key;
`writable = false` models an environment in which `QSettings::setValue`
followed by `sync()` does not take effect (for example insufficient
privileges), which the program detects by re-reading. -/
structure ExternalStore where
  value : Option String
  writable : Bool
deriving DecidableEq

/-- Reading the resource: `QSettings::value(name).toString()` returns the
empty string when the value is missing or invalid
(`RegistryKey::readCurrentValue`, `PlistFile::getCurrentValue`). -/
def ExternalStore.read (st : ExternalStore) : String :=
  st.value.getD ""

/-- `QSettings::setValue` + `sync()`: the write takes effect exactly when
the environment lets it stick. -/
def ExternalStore.write (st : ExternalStore) (v : String) : ExternalStore :=
  if st.writable then { st with value := some v } else st

/-- In-memory state of `RegistryKey` (registryKey.h private fields).
`name` is `m_valueName` (the `name()` accessor returns it). -/
structure RegistryKey where
  name : String
  keyPath : String
  isCritical : Bool
  value : String
  previousValue : String
  newValue : String
  changeCount : Nat
  rollbackCancelled : Bool
deriving DecidableEq

/-- `RegistryKey::getCurrentValue` reads the live registry value. -/
def RegistryKey.getCurrentValue (_k : RegistryKey) (st : ExternalStore) : String :=
  st.read

def RegistryKey.setRollbackCancelled (k : RegistryKey) (b : Bool) : RegistryKey :=
  { k with rollbackCancelled := b }

def RegistryKey.setNewValue (k : RegistryKey) (v : String) : RegistryKey :=
  { k with newValue := v }

def RegistryKey.setPreviousValue (k : RegistryKey) (v : String) : RegistryKey :=
  { k with previousValue := v }

def RegistryKey.incrementChangeCount (k : RegistryKey) : RegistryKey :=
  { k with changeCount := k.changeCount + 1 }

def RegistryKey.resetChangeCount (k : RegistryKey) : RegistryKey :=
  { k with changeCount := 0 }

/-- Result of `RegistryKey::setValue`: the updated object, the external
store after any write, whether a registry write + sync happened, and
whether the write-back confirmation mismatched (the warning branch). -/
structure SetValueResult where
  key : RegistryKey
  store : ExternalStore
  wrote : Bool
  mismatchWarned : Bool
deriving DecidableEq

/-- `RegistryKey::setValue` (registryKey.cpp): guarded by
`m_value != value`; shifts the cached value into `m_previousValue`, writes
the new value to the registry, re-reads and warns on mismatch.  When the
argument equals the cached value nothing at all happens. -/
def RegistryKey.setValue (k : RegistryKey) (st : ExternalStore) (v : String) :
    SetValueResult :=
  if k.value ≠ v then
    let k' := { k with previousValue := k.value, value := v }
    let st' := st.write v
    { key := k', store := st', wrote := true, mismatchWarned := st'.read ≠ v }
  else
    { key := k, store := st, wrote := false, mismatchWarned := false }

/-- In-memory state of `PlistFile` (plistFile.h private fields). -/
structure PlistFile where
  plistPath : String
  valueName : String
  isCritical : Bool
  value : String
  previousValue : String
  newValue : String
  changeCount : Nat
  rollbackCancelled : Bool
deriving DecidableEq

/-- `PlistFile::getCurrentValue`: missing file, missing key or invalid
variant all read as the empty string. -/
def PlistFile.getCurrentValue (_p : PlistFile) (st : ExternalStore) : String :=
  st.read

def PlistFile.setRollbackCancelled (p : PlistFile) (b : Bool) : PlistFile :=
  { p with rollbackCancelled := b }

def PlistFile.setNewValue (p : PlistFile) (v : String) : PlistFile :=
  { p with newValue := v }

def PlistFile.setPreviousValue (p : PlistFile) (v : String) : PlistFile :=
  { p with previousValue := v }

def PlistFile.incrementChangeCount (p : PlistFile) : PlistFile :=
  { p with changeCount := p.changeCount + 1 }

def PlistFile.resetChangeCount (p : PlistFile) : PlistFile :=
  { p with changeCount := 0 }

/-- Result of `PlistFile::setValue`; the plist version additionally emits a
`logMessage` signal on the changed branch. -/
structure PlistSetValueResult where
  plist : PlistFile
  store : ExternalStore
  wrote : Bool
  logMessages : List String
  mismatchWarned : Bool
deriving DecidableEq

/-- `PlistFile::setValue` (plistFile.cpp lines 219-242): same guard and
write-confirm shape as the registry version. -/
def PlistFile.setValue (p : PlistFile) (st : ExternalStore) (v : String) :
    PlistSetValueResult :=
  if p.value ≠ v then
    let p' := { p with previousValue := p.value, value := v }
    let st' := st.write v
    { plist := p', store := st', wrote := true,
      logMessages :=
        ["[LOG] Plist: " ++ p.valueName ++ ", Prev: " ++ p'.previousValue ++
          ", New: " ++ p'.value],
      mismatchWarned := st'.read ≠ v }
  else
    { plist := p, store := st, wrote := false, logMessages := [],
      mismatchWarned := false }

/-- Externally visible monitoring-control state shared by
`WindowsMonitoring` and `MacOSMonitoring` (the two implementations of
`startMonitoring` / `stopMonitoring` are textually identical):
`m_monitoringActive`, whether `m_timer` is running, and the emitted
`statusChanged` signals. -/
structure MonitoringControl where
  monitoringActive : Bool
  timerRunning : Bool
  statusSignals : List String
deriving DecidableEq

/-- `startMonitoring`: guarded by `!m_monitoringActive`; sets the flag,
starts the 1 s timer and emits `statusChanged("Monitoring started")`. -/
def MonitoringControl.startMonitoring (s : MonitoringControl) : MonitoringControl :=
  if ¬ s.monitoringActive then
    { monitoringActive := true, timerRunning := true,
      statusSignals := s.statusSignals ++ ["Monitoring started"] }
  else s

/-- `stopMonitoring`: guarded by `m_monitoringActive`; clears the flag,
stops the timer and emits `statusChanged("Monitoring stopped")`. -/
def MonitoringControl.stopMonitoring (s : MonitoringControl) : MonitoringControl :=
  if s.monitoringActive then
    { monitoringActive := false, timerRunning := false,
      statusSignals := s.statusSignals ++ ["Monitoring stopped"] }
  else s

/-- One `Database::insertOrUpdateConfiguration` call (ConfigurationSettings
table row). -/
structure ConfigRecord where
  configName : String
  configPath : String
  configValue : String
  isCritical : Bool
deriving DecidableEq

/-- One `Database::insertChange` call (Changes table row).  The `critical`
parameter of `insertChange` defaults to `false` in Database.h. -/
structure ChangeRecord where
  configName : String
  oldValue : String
  newValue : String
  acknowledged : Bool
  critical : Bool
deriving DecidableEq

/-- What `restorePreviousValue` logged: already at baseline, confirmed
restore (the success log), or the `[ROLLBACK] Failed to restore` warning
when the re-read does not match. -/
inductive RestoreOutcome where
  | noActionNeeded
  | restored
  | restoreFailed
deriving DecidableEq

/-- `WindowsRollback::restorePreviousValue` (plistFile.cpp lines 408-436):
re-reads, writes `previousValue` back through `QSettings`, syncs, then
confirms by re-reading and logs success or failure. -/
def WindowsRollback.restorePreviousValue (k : RegistryKey) (st : ExternalStore) :
    ExternalStore × RestoreOutcome :=
  let prevValue := k.previousValue
  let current := k.getCurrentValue st
  if current = prevValue then
    (st, RestoreOutcome.noActionNeeded)
  else
    let st' := st.write prevValue
    if st'.read = prevValue then (st', RestoreOutcome.restored)
    else (st', RestoreOutcome.restoreFailed)

/-- Result of `WindowsRollback::rollbackIfNeeded`: updated key and store,
the `restorePreviousValue` log outcome (if a restore ran), the
ConfigurationSettings writes, and the emitted `rollbackPerformed`
signals. -/
structure RollbackResult where
  key : RegistryKey
  store : ExternalStore
  restore : Option RestoreOutcome
  configWrites : List ConfigRecord
  rollbackPerformedSignals : List String
deriving DecidableEq

/-- `WindowsRollback::rollbackIfNeeded` (plistFile.cpp lines 313-345): when
the key is critical and the live value differs from `previousValue()`, it
caches the bad value in `newValue`, runs `restorePreviousValue`, persists
the restored value to ConfigurationSettings and emits `rollbackPerformed`
— the emit is unconditional on that branch and the function never reads
the `rollbackCancelled` flag. -/
def WindowsRollback.rollbackIfNeeded (k : RegistryKey) (st : ExternalStore) :
    RollbackResult :=
  let prevValue := k.previousValue
  let current := k.getCurrentValue st
  if k.isCritical ∧ current ≠ prevValue then
    let k' := k.setNewValue current
    let (st', outcome) := WindowsRollback.restorePreviousValue k' st
    { key := k', store := st', restore := some outcome,
      configWrites := [⟨k.name, k.keyPath, prevValue, true⟩],
      rollbackPerformedSignals := [k.name] }
  else
    { key := k, store := st, restore := none, configWrites := [],
      rollbackPerformedSignals := [] }

/-- `MacOSRollback::restorePreviousValue` (alert.cpp tail, lines 445-472):
same shape as the Windows version, on a `PlistFile`. -/
def MacOSRollback.restorePreviousValue (p : PlistFile) (st : ExternalStore) :
    ExternalStore × RestoreOutcome :=
  let prevValue := p.previousValue
  let current := p.getCurrentValue st
  if current = prevValue then
    (st, RestoreOutcome.noActionNeeded)
  else
    let st' := st.write prevValue
    if st'.read = prevValue then (st', RestoreOutcome.restored)
    else (st', RestoreOutcome.restoreFailed)

/-- Result of `MacOSRollback::rollbackIfNeeded`. -/
structure MacRollbackResult where
  plist : PlistFile
  store : ExternalStore
  restore : Option RestoreOutcome
  configWrites : List ConfigRecord
  rollbackPerformedSignals : List String
deriving DecidableEq

/-- `MacOSRollback::rollbackIfNeeded` (alert.cpp tail, lines 400-432):
identical logic to the Windows manager — critical + divergence from
`previousValue()` triggers `setNewValue`, restore, a ConfigurationSettings
write of the baseline, and an unconditional `rollbackPerformed` emit; the
exemption flag is never consulted here. -/
def MacOSRollback.rollbackIfNeeded (p : PlistFile) (st : ExternalStore) :
    MacRollbackResult :=
  let prevValue := p.previousValue
  let current := p.getCurrentValue st
  if p.isCritical ∧ current ≠ prevValue then
    let p' := p.setNewValue current
    let (st', outcome) := MacOSRollback.restorePreviousValue p' st
    { plist := p', store := st', restore := some outcome,
      configWrites := [⟨p.valueName, p.plistPath, prevValue, true⟩],
      rollbackPerformedSignals := [p.valueName] }
  else
    { plist := p, store := st, restore := none, configWrites := [],
      rollbackPerformedSignals := [] }

/-- One row of the UserSettings table as returned (decrypted) by
`Database::getAllUserSettings`. -/
structure UserSetting where
  email : String
  phone : String
deriving DecidableEq

/-- Environment of the `Alert` object: whether the AWS SNS / SESv2 clients
and the `Database` were initialized, the current user-settings rows, and
the per-address outcome of the external delivery transports
(`sendSmsAlert` / `sendEmailAlert` return false on transport failure). -/
structure AlertEnv where
  snsInit : Bool
  sesInit : Bool
  dbInit : Bool
  users : List UserSetting
  emailOk : String → Bool
  smsOk : String → Bool

/-- Mutable state of `Alert`: the sliding-window timestamp vector
`m_alertTimestamps` (seconds). -/
structure AlertState where
  timestamps : List Nat
deriving DecidableEq

/-- How many channel deliveries succeed for one user row: email is
attempted when non-empty (succeeding only if the SES client exists and the
transport succeeds), likewise SMS via SNS. -/
def AlertEnv.deliverUser (env : AlertEnv) (u : UserSetting) : Nat :=
  (if u.email ≠ "" ∧ env.sesInit ∧ env.emailOk u.email then 1 else 0) +
  (if u.phone ≠ "" ∧ env.snsInit ∧ env.smsOk u.phone then 1 else 0)

/-- Total number of successful channel deliveries over all user rows; the
code's `anySent` flag is `deliveredCount ≠ 0`. -/
def AlertEnv.deliveredCount (env : AlertEnv) : Nat :=
  (env.users.map env.deliverUser).sum

/-- The sliding-window prune in `sendAlert`: timestamps older than one hour
(`ts < now - 3600`) are erased from `m_alertTimestamps`. -/
def AlertState.prune (st : AlertState) (now : Nat) : List Nat :=
  st.timestamps.filter (fun ts => ¬ ts < now - 3600)

/-- The rate-limit cap: `m_settings->getNotificationFrequency().toInt()`
clamped by `if (freq <= 0) freq = 10` — so a non-numeric frequency such as
"Never" (which parses to 0) becomes the default cap of 10 per hour. -/
def clampFreq (notificationFrequency : String) : Int :=
  if qstringToInt notificationFrequency ≤ 0 then 10
  else qstringToInt notificationFrequency

/-- Result of one `Alert::sendAlert` call: the returned flag, how many
channel deliveries succeeded during the call, and the timestamp window
afterwards. -/
structure SendResult where
  sent : Bool
  delivered : Nat
  state : AlertState
deriving DecidableEq

/-- `Alert::sendAlert` (alert.cpp lines 98-187): guard clauses for missing
clients/database/users/contacts, then prune the one-hour window, compare
its size against the clamped frequency, attempt all deliveries when under
the limit, and push a timestamp only when at least one delivery
succeeded. -/
def Alert.sendAlert (env : AlertEnv) (st : AlertState) (now : Nat)
    (notificationFrequency : String) (_message : String) : SendResult :=
  if ¬ env.snsInit ∧ ¬ env.sesInit then ⟨false, 0, st⟩
  else if ¬ env.dbInit then ⟨false, 0, st⟩
  else if env.users = [] then ⟨false, 0, st⟩
  else if ¬ env.users.any (fun u => u.email ≠ "" ∨ u.phone ≠ "") then ⟨false, 0, st⟩
  else
    let pruned := st.prune now
    if (pruned.length : Int) < clampFreq notificationFrequency then
      if env.deliveredCount ≠ 0 then ⟨true, env.deliveredCount, ⟨pruned ++ [now]⟩⟩
      else ⟨false, 0, ⟨pruned⟩⟩
    else ⟨false, 0, ⟨pruned⟩⟩

/-- An alert environment in which `sendAlert` reaches the delivery loop
and at least one channel delivery succeeds: the guard clauses of
`sendAlert` pass and `anySent` comes out true. -/
def AlertEnv.Deliverable (env : AlertEnv) : Prop :=
  (env.snsInit = true ∨ env.sesInit = true) ∧ env.dbInit = true ∧
  env.users ≠ [] ∧
  env.users.any (fun u => u.email ≠ "" ∨ u.phone ≠ "") = true ∧
  env.deliveredCount ≠ 0

/-- Iterating `sendAlert` for a burst of attempts at one instant (a test
driver over the embedded function, counting how many calls returned
true). -/
def Alert.sendBurst (env : AlertEnv) (now : Nat) (notificationFrequency : String)
    (message : String) : Nat → AlertState → Nat × AlertState
  | 0, st => (0, st)
  | n + 1, st =>
    let r := Alert.sendAlert env st now notificationFrequency message
    let rest := Alert.sendBurst env now notificationFrequency message n r.state
    ((if r.sent then 1 else 0) + rest.1, rest.2)

/-- The `Settings` fields the monitoring loops read. -/
structure MonitoringSettings where
  nonCriticalAlertThreshold : String
  notificationFrequency : String
deriving DecidableEq

/-- `QHash<QString,QString>::value`: default-constructed (empty) string
when the key is absent — this is the `m_lastAlertedValue` lookup used by
the debounce check. -/
def hashValue (m : List (String × String)) (k : String) : String :=
  ((m.find? (fun e => e.1 = k)).map (·.2)).getD ""

/-- `QHash::insert` (replace semantics) for `m_lastAlertedValue`. -/
def hashInsert (m : List (String × String)) (k v : String) :
    List (String × String) :=
  (k, v) :: m.filter (fun e => ¬ e.1 = k)

/-- Everything one iteration of the Windows `checkForChanges` loop body
produces for a single registry key. -/
structure WinStepResult where
  key : RegistryKey
  store : ExternalStore
  lastAlerted : List (String × String)
  alert : AlertState
  changeLog : List ChangeRecord
  configWrites : List ConfigRecord
  delayedAlerts : List String
  alertCalls : List (String × Bool)
  rollbackPerformedSignals : List String
deriving DecidableEq

/-- Loop body of `WindowsMonitoring::checkForChanges` (WindowsMonitoring.cpp
lines 211-320) for one key: detect divergence from the cached value, log
it with `insertChange(name, prev, current, false)` — the 4-argument call,
so the `critical` column takes its default `false` — debounce on
`m_lastAlertedValue`, then branch: critical keys get
`setRollbackCancelled(false)`, `setNewValue`, `rollbackIfNeeded` and a
delayed (10 s) alert armed; non-critical keys count toward the threshold,
and the immediate alert is gated on the frequency not being "Never";
finally the configuration row is updated and `setValue(currentValue)`
advances the cache (writing the observed value back to the registry). -/
def WindowsMonitoring.checkForChangesStep (settings : MonitoringSettings)
    (env : AlertEnv) (now : Nat) (k : RegistryKey) (st : ExternalStore)
    (la : List (String × String)) (as : AlertState) : WinStepResult :=
  let currentValue := k.getCurrentValue st
  let prevValue := k.value
  if currentValue = prevValue then
    ⟨k, st, la, as, [], [], [], [], []⟩
  else
    let log : List ChangeRecord := [⟨k.name, prevValue, currentValue, false, false⟩]
    if hashValue la k.name = currentValue then
      let r := k.setValue st currentValue
      ⟨r.key, r.store, la, as, log, [], [], [], []⟩
    else
      let la' := hashInsert la k.name currentValue
      if k.isCritical then
        let k1 := (k.setRollbackCancelled false).setNewValue currentValue
        let rb := WindowsRollback.rollbackIfNeeded k1 st
        let pendingMsg :=
          "[CRITICAL ALERT] Key: " ++ k.name ++ " changed to " ++ currentValue
        let cfgFinal : ConfigRecord := ⟨k.name, k.keyPath, currentValue, k.isCritical⟩
        let r := rb.key.setValue rb.store currentValue
        ⟨r.key, r.store, la', as, log, rb.configWrites ++ [cfgFinal],
          [pendingMsg], [], rb.rollbackPerformedSignals⟩
      else
        let k1 := k.incrementChangeCount
        let threshold := qstringToInt settings.nonCriticalAlertThreshold
        if 0 < threshold ∧ threshold ≤ (k1.changeCount : Int) then
          let msg := "[ALERT] Non-critical threshold reached for " ++ k.name ++
            ": " ++ currentValue
          let k2 := k1.resetChangeCount
          let calls :=
            if ¬ settings.notificationFrequency.toLower = "never" then
              let ra := Alert.sendAlert env as now settings.notificationFrequency msg
              ([(msg, ra.sent)], ra.state)
            else ([], as)
          let cfgFinal : ConfigRecord := ⟨k.name, k.keyPath, currentValue, k.isCritical⟩
          let r := k2.setValue st currentValue
          ⟨r.key, r.store, la', calls.2, log, [cfgFinal], [], calls.1, []⟩
        else
          let cfg : ConfigRecord := ⟨k.name, k.keyPath, currentValue, false⟩
          let r := k1.setValue st currentValue
          ⟨r.key, r.store, la', as, log, [cfg], [], [], []⟩

/-- The `QTimer::singleShot(10000, ...)` callback armed by the critical
branch: checks the exemption flag at fire time, then the "Never" kill
switch, and only then calls `sendAlert`. -/
def WindowsMonitoring.delayedCriticalAlert (settings : MonitoringSettings)
    (env : AlertEnv) (now : Nat) (k : RegistryKey) (as : AlertState)
    (pendingMsg : String) : List (String × Bool) × AlertState :=
  if ¬ k.rollbackCancelled then
    if settings.notificationFrequency.toLower = "never" then ([], as)
    else
      let r := Alert.sendAlert env as now settings.notificationFrequency pendingMsg
      ([(pendingMsg, r.sent)], r.state)
  else ([], as)

/-- Everything one iteration of the macOS `checkForChanges` loop body
produces for a single plist entry. -/
structure MacStepResult where
  plist : PlistFile
  store : ExternalStore
  lastAlerted : List (String × String)
  alert : AlertState
  changeLog : List ChangeRecord
  configWrites : List ConfigRecord
  alertCalls : List (String × Bool)
  rollbackPerformedSignals : List String
  criticalChangeSignals : List String
deriving DecidableEq

/-- Loop body of `MacOSMonitoring::checkForChanges` (part_003 lines
214-289) for one plist.  Differences from the Windows version, straight
from the source: the `rollbackPerformed` handler installed in the
constructor (lines 48-55) calls `m_alert.sendAlert` immediately during the
emit, the critical-path alert is sent immediately (not delayed), and
neither of those calls checks the "Never" frequency setting. -/
def MacOSMonitoring.checkForChangesStep (settings : MonitoringSettings)
    (env : AlertEnv) (now : Nat) (p : PlistFile) (st : ExternalStore)
    (la : List (String × String)) (as : AlertState) : MacStepResult :=
  let currentValue := p.getCurrentValue st
  let prevValue := p.value
  if currentValue = prevValue then
    ⟨p, st, la, as, [], [], [], [], []⟩
  else
    let log : List ChangeRecord :=
      [⟨p.valueName, prevValue, currentValue, false, false⟩]
    if hashValue la p.valueName = currentValue then
      let r := p.setValue st currentValue
      ⟨r.plist, r.store, la, as, log, [], [], [], []⟩
    else
      let la' := hashInsert la p.valueName currentValue
      if p.isCritical then
        let p1 := (p.setRollbackCancelled false).setNewValue currentValue
        let rb := MacOSRollback.rollbackIfNeeded p1 st
        let handlerMsgs := rb.rollbackPerformedSignals.map
          (fun n => "[CRITICAL] Revert performed for file: " ++ n)
        let handler :=
          match handlerMsgs with
          | [] => (([] : List (String × Bool)), as)
          | m :: _ =>
            let r := Alert.sendAlert env as now settings.notificationFrequency m
            ([(m, r.sent)], r.state)
        let alertMessage :=
          "[CRITICAL ALERT] " ++ p.plistPath ++ " changed to " ++ currentValue
        let r2 := Alert.sendAlert env handler.2 now settings.notificationFrequency
          alertMessage
        let cfgFinal : ConfigRecord :=
          ⟨p.valueName, p.plistPath, currentValue, p.isCritical⟩
        let r := rb.plist.setValue rb.store currentValue
        ⟨r.plist, r.store, la', r2.state, log, rb.configWrites ++ [cfgFinal],
          handler.1 ++ [(alertMessage, r2.sent)], rb.rollbackPerformedSignals,
          handlerMsgs⟩
      else
        let p1 := p.incrementChangeCount
        let threshold := qstringToInt settings.nonCriticalAlertThreshold
        if 0 < threshold ∧ threshold ≤ (p1.changeCount : Int) then
          let alertMessage :=
            "[ALERT] Threshold reached for " ++ p.plistPath ++ ": " ++ currentValue
          let p2 := p1.resetChangeCount
          let r2 := Alert.sendAlert env as now settings.notificationFrequency
            alertMessage
          let cfgFinal : ConfigRecord :=
            ⟨p.valueName, p.plistPath, currentValue, p.isCritical⟩
          let r := p2.setValue st currentValue
          ⟨r.plist, r.store, la', r2.state, log, [cfgFinal],
            [(alertMessage, r2.sent)], [], []⟩
        else
          let cfg : ConfigRecord := ⟨p.valueName, p.plistPath, currentValue, false⟩
          let r := p1.setValue st currentValue
          ⟨r.plist, r.store, la', as, log, [cfg], [], [], []⟩

/-- Byte-wise xor, the CBC chaining step. -/
def xorBytes (a b : List Nat) : List Nat :=
  List.zipWith (fun x y => x ^^^ y) a b

/-- The external OpenSSL block primitive (`EVP_aes_256_cbc` keyed by the
loaded 32-byte key): one 16-byte-block permutation and its inverse.  The
cipher itself lives outside this repository; `EncryptionUtils` only drives
it through the EVP interface, so it is kept as a parameter here. -/
structure BlockCipher where
  enc : List Nat → List Nat
  dec : List Nat → List Nat

/-- A well-formed 16-byte block. -/
def ValidBlock (b : List Nat) : Prop :=
  b.length = 16 ∧ ∀ x ∈ b, x < 256

/-- What AES-256 under a fixed key guarantees: encryption maps blocks to
blocks and decryption inverts it. -/
def BlockCipher.Valid (C : BlockCipher) : Prop :=
  (∀ b, ValidBlock b → ValidBlock (C.enc b)) ∧
  (∀ b, ValidBlock b → C.dec (C.enc b) = b)

/-- Split a byte string into 16-byte blocks (the last one possibly short;
the callers below only use it on multiples of 16). -/
def chunks16 : List Nat → List (List Nat)
  | [] => []
  | a :: rest => ((a :: rest).take 16) :: chunks16 ((a :: rest).drop 16)
termination_by l => l.length
decreasing_by
  simp [List.length_drop]
  omega

/-- CBC encryption over a block list: each plaintext block is xor-ed with
the previous ciphertext block (initially the IV) before the block cipher
(what `EVP_EncryptUpdate`/`Final` compute for AES-256-CBC). -/
def cbcEncrypt (C : BlockCipher) (prev : List Nat) :
    List (List Nat) → List (List Nat)
  | [] => []
  | p :: ps =>
    let c := C.enc (xorBytes prev p)
    c :: cbcEncrypt C c ps

/-- CBC decryption over a block list. -/
def cbcDecrypt (C : BlockCipher) (prev : List Nat) :
    List (List Nat) → List (List Nat)
  | [] => []
  | c :: cs => xorBytes prev (C.dec c) :: cbcDecrypt C c cs

/-- PKCS#7 padding to a multiple of 16 bytes, as `EVP_EncryptFinal_ex`
appends it: `p = 16 - len % 16` bytes, each of value `p` (a full pad block
when the input is already block-aligned). -/
def pad16 (data : List Nat) : List Nat :=
  let p := 16 - data.length % 16
  data ++ List.replicate p p

/-- PKCS#7 unpadding with validation, as `EVP_DecryptFinal_ex` performs
it: the last byte must be a pad length in 1..16 and every pad byte must
match, otherwise the decrypt call fails (modelled by the empty result,
which is what `EncryptionUtils::decrypt` returns on failure). -/
def unpad16 (data : List Nat) : List Nat :=
  match data.getLast? with
  | none => []
  | some p =>
    if 1 ≤ p ∧ p ≤ 16 ∧ p ≤ data.length ∧
        (data.drop (data.length - p)).all (fun x => x = p) then
      data.take (data.length - p)
    else []

/-- The base64 alphabet as ASCII codes. -/
def b64Table : List Nat :=
  (List.range 26).map (fun i => i + 65) ++
  (List.range 26).map (fun i => i + 97) ++
  (List.range 10).map (fun i => i + 48) ++ [43, 47]

/-- Sextet to base64 character code. -/
def b64Char (n : Nat) : Nat := b64Table.getD n 0

/-- Base64 character code back to sextet (0 for anything else). -/
def b64Val (c : Nat) : Nat :=
  if 65 ≤ c ∧ c ≤ 90 then c - 65
  else if 97 ≤ c ∧ c ≤ 122 then c - 71
  else if 48 ≤ c ∧ c ≤ 57 then c + 4
  else if c = 43 then 62
  else if c = 47 then 63
  else 0

/-- `QByteArray::toBase64`: 3 bytes to 4 characters, '=' (61) padding. -/
def b64EncodeChunks : List Nat → List Nat
  | a :: b :: c :: rest =>
    b64Char (a / 4) :: b64Char (a % 4 * 16 + b / 16) ::
      b64Char (b % 16 * 4 + c / 64) :: b64Char (c % 64) ::
      b64EncodeChunks rest
  | [a, b] =>
    [b64Char (a / 4), b64Char (a % 4 * 16 + b / 16), b64Char (b % 16 * 4), 61]
  | [a] => [b64Char (a / 4), b64Char (a % 4 * 16), 61, 61]
  | [] => []

/-- `QByteArray::fromBase64` on well-formed input (the encoder's output;
Qt is lenient on malformed input, which never arises below). -/
def b64DecodeChunks : List Nat → List Nat
  | c1 :: c2 :: c3 :: c4 :: rest =>
    if c4 = 61 then
      if c3 = 61 then [b64Val c1 * 4 + b64Val c2 / 16]
      else [b64Val c1 * 4 + b64Val c2 / 16, b64Val c2 % 16 * 16 + b64Val c3 / 4]
    else
      (b64Val c1 * 4 + b64Val c2 / 16) ::
        (b64Val c2 % 16 * 16 + b64Val c3 / 4) ::
        (b64Val c3 % 4 * 64 + b64Val c4) :: b64DecodeChunks rest
  | _ => []

/-- The loaded key material (`EncryptionUtils::encryptionKey` /
`encryptionIv`, byte lists; 32 and 16 bytes respectively when valid). -/
structure EncState where
  key : List Nat
  iv : List Nat
deriving DecidableEq

/-- `EncryptionUtils::encrypt` (part_003 lines 555-625) on the UTF-8 bytes
of the input: empty input and missing key/IV return the empty (failure)
result; otherwise AES-256-CBC over the PKCS#7-padded input, base64
encoded. -/
def EncryptionUtils.encrypt (C : BlockCipher) (st : EncState)
    (data : List Nat) : List Nat :=
  if data = [] then []
  else if st.key = [] ∨ st.iv = [] then []
  else b64EncodeChunks (cbcEncrypt C st.iv (chunks16 (pad16 data))).flatten

/-- `EncryptionUtils::decrypt` (part_003 lines 639-707): empty input and
missing key/IV fail; the base64 payload is decoded, block-decrypted, and
`EVP_DecryptFinal_ex` fails (empty result) when the data is not
block-aligned or the PKCS#7 padding does not verify. -/
def EncryptionUtils.decrypt (C : BlockCipher) (st : EncState)
    (encryptedData : List Nat) : List Nat :=
  if encryptedData = [] then []
  else if st.key = [] ∨ st.iv = [] then []
  else
    let cipher := b64DecodeChunks encryptedData
    if cipher = [] ∨ ¬ cipher.length % 16 = 0 then []
    else unpad16 (cbcDecrypt C st.iv (chunks16 cipher)).flatten

-- ==========================================================================
-- Theorems
-- ==========================================================================

/-- Helper: `setValue` never touches the change counter (registry). -/
theorem RegistryKey.setValue_keeps_changeCount (k : RegistryKey) (st : ExternalStore)
    (v : String) : (k.setValue st v).key.changeCount = k.changeCount := by
  unfold RegistryKey.setValue
  split <;> rfl

/-- Helper: `setValue` never touches the change counter (plist). -/
theorem PlistFile.setValue_fixes_changeCount (p : PlistFile) (st : ExternalStore)
    (v : String) : (p.setValue st v).plist.changeCount = p.changeCount := by
  unfold PlistFile.setValue
  split <;> rfl

/-- Helper: on any observed divergence the Windows loop body logs exactly
one change row, with `acknowledged = false` and the defaulted
`critical = false`, before any debounce or branch decides anything. -/
theorem winStep_changeLog (settings : MonitoringSettings) (env : AlertEnv)
    (now : Nat) (k : RegistryKey) (st : ExternalStore)
    (la : List (String × String)) (as : AlertState)
    (hk : k.getCurrentValue st ≠ k.value) :
    (WindowsMonitoring.checkForChangesStep settings env now k st la as).changeLog =
      [⟨k.name, k.value, k.getCurrentValue st, false, false⟩] := by
  simp only [WindowsMonitoring.checkForChangesStep]
  rw [if_neg hk]
  split_ifs <;> rfl

/-- Helper: same for the macOS loop body. -/
theorem macStep_changeLog (settings : MonitoringSettings) (env : AlertEnv)
    (now : Nat) (p : PlistFile) (st : ExternalStore)
    (la : List (String × String)) (as : AlertState)
    (hp : p.getCurrentValue st ≠ p.value) :
    (MacOSMonitoring.checkForChangesStep settings env now p st la as).changeLog =
      [⟨p.valueName, p.value, p.getCurrentValue st, false, false⟩] := by
  simp only [MacOSMonitoring.checkForChangesStep]
  rw [if_neg hp]
  split_ifs <;> rfl

/-- C2 counterexample: for a critical key the logged Change Event has
`critical = false`, not `critical = item.isCritical` — `checkForChanges`
calls the 4-argument `insertChange`, so the `critical` column always takes
its default `false`. -/
theorem change_event_critical_flag_counterexample :
    let env : AlertEnv := ⟨true, true, true, [⟨"user@example.com", ""⟩],
      fun _ => true, fun _ => true⟩
    let k : RegistryKey :=
      ⟨"DoubleClickSpeed", "Control Panel\\Mouse", true, "500", "500", "", 0, false⟩
    let st : ExternalStore := ⟨some "100", true⟩
    let r := WindowsMonitoring.checkForChangesStep ⟨"0", "10"⟩ env 4000 k st [] ⟨[]⟩
    k.isCritical = true ∧
    r.changeLog = [⟨"DoubleClickSpeed", "500", "100", false, false⟩] ∧
    r.changeLog.map (fun c => c.critical) = [false] := by
  decide

/-- C2 amended: on every tick in which the observed value differs from the
cached value, both loop bodies append exactly one Change Event with
`acknowledged = false` and `critical = false` (the 4-argument
`insertChange` call leaves the `critical` column at its default, even for
critical items), and this happens before the debounce check and before any
critical/non-critical branching, so every observed divergence — including
later-debounced ones — produces a log entry. -/
theorem change_event_logged_unconditionally (settings : MonitoringSettings)
    (env : AlertEnv) (now : Nat) (k : RegistryKey) (st : ExternalStore)
    (la : List (String × String)) (as : AlertState) (p : PlistFile)
    (su : ExternalStore) (lb : List (String × String)) (bs : AlertState)
    (hk : k.getCurrentValue st ≠ k.value)
    (hp : p.getCurrentValue su ≠ p.value) :
    (WindowsMonitoring.checkForChangesStep settings env now k st la as).changeLog =
      [⟨k.name, k.value, k.getCurrentValue st, false, false⟩] ∧
    (MacOSMonitoring.checkForChangesStep settings env now p su lb bs).changeLog =
      [⟨p.valueName, p.value, p.getCurrentValue su, false, false⟩] :=
  ⟨winStep_changeLog settings env now k st la as hk,
   macStep_changeLog settings env now p su lb bs hp⟩

/-- Witness for the C2 amended theorem at concrete diverging items. -/
theorem change_event_logged_unconditionally_witness :
    let env : AlertEnv := ⟨true, true, true, [⟨"user@example.com", ""⟩],
      fun _ => true, fun _ => true⟩
    let k : RegistryKey :=
      ⟨"DoubleClickSpeed", "Control Panel\\Mouse", true, "500", "500", "", 0, false⟩
    let st : ExternalStore := ⟨some "100", true⟩
    let p : PlistFile :=
      ⟨"~/Library/Preferences/com.apple.dock.plist", "tilesize", false,
        "48", "48", "", 0, false⟩
    let su : ExternalStore := ⟨some "64", true⟩
    (WindowsMonitoring.checkForChangesStep ⟨"3", "10"⟩ env 4000 k st [] ⟨[]⟩).changeLog =
      [⟨k.name, k.value, k.getCurrentValue st, false, false⟩] ∧
    (MacOSMonitoring.checkForChangesStep ⟨"3", "10"⟩ env 4000 p su [] ⟨[]⟩).changeLog =
      [⟨p.valueName, p.value, p.getCurrentValue su, false, false⟩] :=
  change_event_logged_unconditionally ⟨"3", "10"⟩ _ 4000 _ _ [] ⟨[]⟩ _ _ [] ⟨[]⟩
    (by decide) (by decide)

/-- C3 counterexample: a critical plist entry whose backing file is missing
(`value = none`) with cached value "500" is not treated as unchanged: the
read returns the empty string, a Change Event (500 → "") is logged, and —
here with a stale last-alerted entry so the debounce does not catch the
empty string — the rollback manager runs (recreating the resource with the
baseline) and two alerts are dispatched. -/
theorem missing_resource_detected_as_change_counterexample :
    let env : AlertEnv := ⟨true, true, true, [⟨"user@example.com", ""⟩],
      fun _ => true, fun _ => true⟩
    let p : PlistFile :=
      ⟨"~/Library/Preferences/com.apple.dock.plist", "tilesize", true,
        "500", "500", "", 0, false⟩
    let st : ExternalStore := ⟨none, true⟩
    let r := MacOSMonitoring.checkForChangesStep ⟨"0", "10"⟩ env 4000 p st
      [("tilesize", "100")] ⟨[]⟩
    st.value = none ∧
    r.changeLog = [⟨"tilesize", "500", "", false, false⟩] ∧
    r.rollbackPerformedSignals = ["tilesize"] ∧
    r.alertCalls.length = 2 := by
  decide

/-- C3 amended: a missing or unreadable backing resource is read as the
empty string, not skipped.  If the cached value is already empty the tick
sees no transition (full no-op); if the cached value is non-empty the tick
detects a transition to the empty string and logs a Change Event, then
proceeds through the ordinary debounce/branching (on a fresh tick with no
last-alerted entry, the QHash default empty string makes the debounce
accept the empty value silently). -/
theorem missing_resource_reads_empty (settings : MonitoringSettings)
    (env : AlertEnv) (now : Nat) (p : PlistFile)
    (la : List (String × String)) (as : AlertState)
    (st : ExternalStore) (hst : st.value = none) :
    p.getCurrentValue st = "" ∧
    (p.value = "" →
      MacOSMonitoring.checkForChangesStep settings env now p st la as =
        ⟨p, st, la, as, [], [], [], [], []⟩) ∧
    (p.value ≠ "" →
      (MacOSMonitoring.checkForChangesStep settings env now p st la as).changeLog =
        [⟨p.valueName, p.value, "", false, false⟩]) := by
  have hread : p.getCurrentValue st = "" := by
    simp [PlistFile.getCurrentValue, ExternalStore.read, hst]
  refine ⟨hread, ?_, ?_⟩
  · intro hv
    unfold MacOSMonitoring.checkForChangesStep
    rw [if_pos (by rw [hread, hv])]
  · intro hv
    have := macStep_changeLog settings env now p st la as
      (by rw [hread]; exact fun h => hv h.symm)
    rw [this, hread]

/-- Witness for the C3 amended theorem at a concrete missing resource. -/
theorem missing_resource_reads_empty_witness :
    let env : AlertEnv := ⟨true, true, true, [⟨"user@example.com", ""⟩],
      fun _ => true, fun _ => true⟩
    let p : PlistFile :=
      ⟨"~/Library/Preferences/com.apple.dock.plist", "tilesize", true,
        "500", "500", "", 0, false⟩
    let st : ExternalStore := ⟨none, true⟩
    p.getCurrentValue st = "" ∧
    (p.value = "" →
      MacOSMonitoring.checkForChangesStep ⟨"0", "10"⟩ env 4000 p st [] ⟨[]⟩ =
        ⟨p, st, [], ⟨[]⟩, [], [], [], [], []⟩) ∧
    (p.value ≠ "" →
      (MacOSMonitoring.checkForChangesStep ⟨"0", "10"⟩ env 4000 p st [] ⟨[]⟩).changeLog =
        [⟨p.valueName, p.value, "", false, false⟩]) :=
  missing_resource_reads_empty ⟨"0", "10"⟩ _ 4000 _ [] ⟨[]⟩ _ (by decide)

/-- C5, failing input for the claim: the macOS monitoring paths dispatch
alerts even when the configured notification frequency is "Never".
`Alert::sendAlert` itself has no kill switch — `"Never".toInt()` is 0,
which the clamp `if (freq <= 0) freq = 10` turns into the default cap of
10 per hour — and neither the `rollbackPerformed` handler nor the
critical/non-critical dispatch sites in `MacOSMonitoring::checkForChanges`
check for "Never" (only the two WindowsMonitoring call sites do).  At this
input both the handler alert and the critical alert are delivered. -/
theorem never_frequency_still_dispatches_on_macos :
    let env : AlertEnv := ⟨true, true, true, [⟨"user@example.com", ""⟩],
      fun _ => true, fun _ => true⟩
    let settings : MonitoringSettings := ⟨"0", "Never"⟩
    let p : PlistFile :=
      ⟨"~/Library/Preferences/com.apple.dock.plist", "tilesize", true,
        "500", "500", "", 0, false⟩
    let st : ExternalStore := ⟨some "100", true⟩
    let r := MacOSMonitoring.checkForChangesStep settings env 4000 p st [] ⟨[]⟩
    qstringToInt "Never" = 0 ∧
    clampFreq "Never" = 10 ∧
    r.alertCalls =
      [("[CRITICAL] Revert performed for file: tilesize", true),
       ("[CRITICAL ALERT] ~/Library/Preferences/com.apple.dock.plist changed to 100",
        true)] := by
  decide

/-- C7: for a non-critical item whose divergence reaches the non-critical
branch (divergence observed, not debounced) with a configured positive
threshold, the alert dispatch is triggered iff the change counter since
the last reset (after this increment) has reached the threshold, and
firing resets the counter to zero while a non-firing divergence leaves the
incremented counter — so after an alert the next one needs `threshold`
further counted divergences.  (Proved on the macOS loop body; the Windows
version is identical except that its dispatch call is additionally gated
by the "Never" kill switch.) -/
theorem noncritical_alert_iff_threshold (settings : MonitoringSettings)
    (env : AlertEnv) (now : Nat) (p : PlistFile) (st : ExternalStore)
    (la : List (String × String)) (as : AlertState) (T : Int)
    (hnc : p.isCritical = false)
    (hch : p.getCurrentValue st ≠ p.value)
    (hdb : hashValue la p.valueName ≠ p.getCurrentValue st)
    (hT : qstringToInt settings.nonCriticalAlertThreshold = T)
    (hTpos : 0 < T) :
    ((MacOSMonitoring.checkForChangesStep settings env now p st la as).alertCalls ≠ []
      ↔ T ≤ (p.changeCount + 1 : Int)) ∧
    (T ≤ (p.changeCount + 1 : Int) →
      (MacOSMonitoring.checkForChangesStep settings env now p st la as).plist.changeCount = 0) ∧
    (¬ T ≤ (p.changeCount + 1 : Int) →
      (MacOSMonitoring.checkForChangesStep settings env now p st la as).plist.changeCount =
        p.changeCount + 1) := by
  unfold MacOSMonitoring.checkForChangesStep
  rw [if_neg hch, if_neg hdb, if_neg (by simp [hnc])]
  simp only [PlistFile.incrementChangeCount, hT]
  by_cases hle : T ≤ (p.changeCount + 1 : Int)
  · rw [if_pos ⟨hTpos, by exact_mod_cast hle⟩]
    refine ⟨by simp [hle], fun _ => ?_, fun h => absurd hle h⟩
    rw [PlistFile.setValue_fixes_changeCount]
    rfl
  · rw [if_neg (by rintro ⟨-, h⟩; exact hle (by exact_mod_cast h))]
    refine ⟨by simp [hle], fun h => absurd h hle, fun _ => ?_⟩
    rw [PlistFile.setValue_fixes_changeCount]

/-- Witness for C7 at threshold 3 with two prior counted divergences. -/
theorem noncritical_alert_iff_threshold_witness :
    let env : AlertEnv := ⟨true, true, true, [⟨"user@example.com", ""⟩],
      fun _ => true, fun _ => true⟩
    let p : PlistFile :=
      ⟨"~/Library/Preferences/com.apple.dock.plist", "tilesize", false,
        "48", "48", "", 2, false⟩
    let st : ExternalStore := ⟨some "64", true⟩
    ((MacOSMonitoring.checkForChangesStep ⟨"3", "10"⟩ env 4000 p st [] ⟨[]⟩).alertCalls ≠ []
      ↔ (3 : Int) ≤ (p.changeCount + 1 : Int)) ∧
    ((3 : Int) ≤ (p.changeCount + 1 : Int) →
      (MacOSMonitoring.checkForChangesStep ⟨"3", "10"⟩ env 4000 p st [] ⟨[]⟩).plist.changeCount = 0) ∧
    (¬ (3 : Int) ≤ (p.changeCount + 1 : Int) →
      (MacOSMonitoring.checkForChangesStep ⟨"3", "10"⟩ env 4000 p st [] ⟨[]⟩).plist.changeCount =
        p.changeCount + 1) :=
  noncritical_alert_iff_threshold ⟨"3", "10"⟩ _ 4000 _ _ [] ⟨[]⟩ 3
    (by decide) (by decide) (by decide) (by decide) (by decide)

/-- C1 counterexample: a critical registry key whose exemption flag
(`rollbackCancelled`) is already set for the observed divergence is rolled
back anyway — `rollbackIfNeeded` restores `previousValue` to the store,
emits `rollbackPerformed`, and leaves the flag set; it does not accept the
diverging value, clear the flag, or produce an "exempted" result. -/
theorem rollbackIfNeeded_exempt_flag_ignored_counterexample :
    let k : RegistryKey :=
      ⟨"DoubleClickSpeed", "Control Panel\\Mouse", true, "500", "500", "100", 0, true⟩
    let st : ExternalStore := ⟨some "100", true⟩
    let r := WindowsRollback.rollbackIfNeeded k st
    r.store.value = some "500" ∧
    r.rollbackPerformedSignals = ["DoubleClickSpeed"] ∧
    r.key.rollbackCancelled = true ∧
    r.key.value = "500" := by
  decide

/-- C1 amended: `rollbackIfNeeded` never consults the rollback-exemption
flag.  On both platforms, for every critical item with an observed
divergence from `previousValue` — exempt or not — it records the diverging
value in `newValue`, attempts the restore, emits `rollbackPerformed`, and
leaves `rollbackCancelled` and the cached `value` unchanged.  (Exemption
takes effect elsewhere: the monitoring loop clears the flag before invoking
rollback and checks it in the delayed-alert callback, and
`allowChange`/`cancelRollback` reapplies the pending value.) -/
theorem rollbackIfNeeded_restores_regardless_of_exemption
    (k : RegistryKey) (p : PlistFile) (st su : ExternalStore)
    (hk : k.isCritical = true) (hd : k.getCurrentValue st ≠ k.previousValue)
    (hp : p.isCritical = true) (he : p.getCurrentValue su ≠ p.previousValue) :
    (WindowsRollback.rollbackIfNeeded k st).key =
      { k with newValue := k.getCurrentValue st } ∧
    (WindowsRollback.rollbackIfNeeded k st).rollbackPerformedSignals = [k.name] ∧
    (WindowsRollback.rollbackIfNeeded k st).key.rollbackCancelled =
      k.rollbackCancelled ∧
    (MacOSRollback.rollbackIfNeeded p su).plist =
      { p with newValue := p.getCurrentValue su } ∧
    (MacOSRollback.rollbackIfNeeded p su).rollbackPerformedSignals =
      [p.valueName] ∧
    (MacOSRollback.rollbackIfNeeded p su).plist.rollbackCancelled =
      p.rollbackCancelled := by
  refine ⟨?_, ?_, ?_, ?_, ?_, ?_⟩ <;>
    simp [WindowsRollback.rollbackIfNeeded, MacOSRollback.rollbackIfNeeded,
      RegistryKey.setNewValue, PlistFile.setNewValue, hk, hd, hp, he]

/-- Witness for the C1 amended theorem at a concrete exempt critical key
and plist. -/
theorem rollbackIfNeeded_restores_regardless_of_exemption_witness :
    let k : RegistryKey :=
      ⟨"DoubleClickSpeed", "Control Panel\\Mouse", true, "500", "500", "", 0, true⟩
    let p : PlistFile :=
      ⟨"~/Library/Preferences/test.plist", "Dock", true, "1", "1", "", 0, true⟩
    let st : ExternalStore := ⟨some "100", true⟩
    let su : ExternalStore := ⟨some "2", true⟩
    (WindowsRollback.rollbackIfNeeded k st).key =
      { k with newValue := k.getCurrentValue st } ∧
    (WindowsRollback.rollbackIfNeeded k st).rollbackPerformedSignals = [k.name] ∧
    (WindowsRollback.rollbackIfNeeded k st).key.rollbackCancelled =
      k.rollbackCancelled ∧
    (MacOSRollback.rollbackIfNeeded p su).plist =
      { p with newValue := p.getCurrentValue su } ∧
    (MacOSRollback.rollbackIfNeeded p su).rollbackPerformedSignals =
      [p.valueName] ∧
    (MacOSRollback.rollbackIfNeeded p su).plist.rollbackCancelled =
      p.rollbackCancelled :=
  rollbackIfNeeded_restores_regardless_of_exemption _ _ _ _
    (by decide) (by decide) (by decide) (by decide)

/-- C4 counterexample: when the restore write does not stick (store not
writable), `restorePreviousValue` logs the rollback-failed warning, yet
`rollbackIfNeeded` still emits the `rollbackPerformed` result for the key —
it does not emit a "rollback failed" result instead. -/
theorem rollbackPerformed_emitted_despite_failed_write_counterexample :
    let k : RegistryKey :=
      ⟨"DoubleClickSpeed", "Control Panel\\Mouse", true, "500", "500", "", 0, false⟩
    let st : ExternalStore := ⟨some "100", false⟩
    let r := WindowsRollback.rollbackIfNeeded k st
    r.restore = some RestoreOutcome.restoreFailed ∧
    r.rollbackPerformedSignals = ["DoubleClickSpeed"] ∧
    r.store.value = some "100" := by
  decide

/-- C4 amended: `restorePreviousValue` does distinguish by re-reading — it
logs the restored outcome exactly when the re-read returns `previousValue`
and the rollback-failed warning otherwise — but `rollbackIfNeeded` emits
`rollbackPerformed` unconditionally after the restore attempt, whether or
not the write stuck.  (The failed write is only logged; it is not retried
within the call.) -/
theorem restore_confirmed_by_reread_but_signal_unconditional
    (k : RegistryKey) (st : ExternalStore)
    (hk : k.isCritical = true) (hd : st.read ≠ k.previousValue) :
    (WindowsRollback.rollbackIfNeeded k st).restore =
      some (if (st.write k.previousValue).read = k.previousValue
            then RestoreOutcome.restored else RestoreOutcome.restoreFailed) ∧
    (WindowsRollback.rollbackIfNeeded k st).rollbackPerformedSignals = [k.name] := by
  constructor
  · simp only [WindowsRollback.rollbackIfNeeded, WindowsRollback.restorePreviousValue,
      RegistryKey.getCurrentValue, RegistryKey.setNewValue, hk, hd, true_and,
      ne_eq, not_false_eq_true, if_true, if_neg, ite_true, ite_false]
    split <;> simp_all
  · simp [WindowsRollback.rollbackIfNeeded, RegistryKey.getCurrentValue, hk, hd]

/-- Witness for the C4 amended theorem: one store where the write sticks
and the outcome is `restored`; the signal is emitted either way. -/
theorem restore_confirmed_by_reread_but_signal_unconditional_witness :
    let k : RegistryKey :=
      ⟨"DoubleClickSpeed", "Control Panel\\Mouse", true, "500", "500", "", 0, false⟩
    let st : ExternalStore := ⟨some "100", true⟩
    (WindowsRollback.rollbackIfNeeded k st).restore =
      some (if (st.write k.previousValue).read = k.previousValue
            then RestoreOutcome.restored else RestoreOutcome.restoreFailed) ∧
    (WindowsRollback.rollbackIfNeeded k st).rollbackPerformedSignals = [k.name] :=
  restore_confirmed_by_reread_but_signal_unconditional _ _ (by decide) (by decide)

/-- Helper: `b64Val` inverts `b64Char` on sextets. -/
theorem b64Val_b64Char {s : Nat} (h : s < 64) : b64Val (b64Char s) = s := by
  have hall : ∀ t : Fin 64, b64Val (b64Char t.val) = t.val := by decide
  exact hall ⟨s, h⟩

/-- Helper: the base64 alphabet never produces the padding character. -/
theorem b64Char_ne_61 {s : Nat} (h : s < 64) : b64Char s ≠ 61 := by
  have hall : ∀ t : Fin 64, b64Char t.val ≠ 61 := by decide
  exact hall ⟨s, h⟩

/-- Helper: base64 decode inverts encode on byte strings. -/
theorem b64_roundtrip : ∀ (l : List Nat), (∀ x ∈ l, x < 256) →
    b64DecodeChunks (b64EncodeChunks l) = l
  | [], _ => rfl
  | [a], h => by
    have ha : a < 256 := h a (by simp)
    simp only [b64EncodeChunks, b64DecodeChunks, if_true]
    rw [b64Val_b64Char (by omega), b64Val_b64Char (by omega)]
    congr 1
    omega
  | [a, b], h => by
    have ha : a < 256 := h a (by simp)
    have hb : b < 256 := h b (by simp)
    simp only [b64EncodeChunks, b64DecodeChunks, if_true]
    rw [if_neg (b64Char_ne_61 (by omega)),
      b64Val_b64Char (by omega), b64Val_b64Char (by omega),
      b64Val_b64Char (by omega)]
    congr 1
    · omega
    · congr 1
      omega
  | a :: b :: c :: rest, h => by
    have ha : a < 256 := h a (by simp)
    have hb : b < 256 := h b (by simp)
    have hc : c < 256 := h c (by simp)
    have ih := b64_roundtrip rest (fun x hx => h x (by simp [hx]))
    simp only [b64EncodeChunks, b64DecodeChunks]
    rw [if_neg (b64Char_ne_61 (by omega)), b64Val_b64Char (by omega),
      b64Val_b64Char (by omega), b64Val_b64Char (by omega),
      b64Val_b64Char (by omega), ih]
    congr 1
    · omega
    · congr 1
      · omega
      · congr 1
        omega

/-- Helper: a non-empty byte string has a non-empty base64 encoding. -/
theorem b64EncodeChunks_ne_nil : ∀ (l : List Nat), l ≠ [] →
    b64EncodeChunks l ≠ []
  | [], h => absurd rfl h
  | [_], _ => by simp [b64EncodeChunks]
  | [_, _], _ => by simp [b64EncodeChunks]
  | _ :: _ :: _ :: _, _ => by simp [b64EncodeChunks]

/-- Helper: xor-ing twice with the same block cancels. -/
theorem xorBytes_cancel : ∀ (a b : List Nat), a.length = b.length →
    xorBytes a (xorBytes a b) = b
  | [], [], _ => rfl
  | [], _ :: _, h => by simp at h
  | _ :: _, [], h => by simp at h
  | x :: xs, y :: ys, h => by
    simp only [xorBytes, List.zipWith_cons_cons]
    rw [Nat.xor_cancel_left]
    have := xorBytes_cancel xs ys (by simpa using h)
    simp only [xorBytes] at this
    rw [this]

/-- Helper: byte-wise xor of valid blocks is a valid block. -/
theorem validBlock_xorBytes {a b : List Nat} (ha : ValidBlock a)
    (hb : ValidBlock b) : ValidBlock (xorBytes a b) := by
  constructor
  · simp [xorBytes, ha.1, hb.1]
  · intro x hx
    obtain ⟨i, hi, rfl⟩ :
        ∃ i, ∃ hlen : i < (xorBytes a b).length, (xorBytes a b)[i] = x := by
      obtain ⟨i, hi, hx⟩ := List.mem_iff_getElem.mp hx
      exact ⟨i, hi, hx⟩
    have hxlen : (xorBytes a b).length = 16 := by
      simp [xorBytes, ha.1, hb.1]
    have hia : i < a.length := by
      rw [ha.1]
      rw [hxlen] at hi
      omega
    have hib : i < b.length := by
      rw [hb.1]
      rw [hxlen] at hi
      omega
    rw [show (xorBytes a b)[i] = a[i] ^^^ b[i] from List.getElem_zipWith]
    have h1 : a[i] < 2 ^ 8 := ha.2 _ (List.getElem_mem hia)
    have h2 : b[i] < 2 ^ 8 := hb.2 _ (List.getElem_mem hib)
    calc a[i] ^^^ b[i] < 2 ^ 8 := Nat.xor_lt_two_pow h1 h2
    _ = 256 := by norm_num

/-- Helper: flattening the 16-byte chunks gives back the byte string. -/
theorem chunks16_flatten_self : ∀ (l : List Nat), (chunks16 l).flatten = l
  | [] => by simp [chunks16]
  | a :: rest => by
    rw [chunks16]
    simp only [List.flatten_cons]
    rw [chunks16_flatten_self ((a :: rest).drop 16)]
    exact List.take_append_drop 16 (a :: rest)
termination_by l => l.length
decreasing_by
  simp [List.length_drop]
  omega

/-- Helper: chunking a block-aligned byte string yields valid blocks. -/
theorem chunks16_valid : ∀ (l : List Nat), l.length % 16 = 0 →
    (∀ x ∈ l, x < 256) → ∀ b ∈ chunks16 l, ValidBlock b
  | [], _, _ => by simp [chunks16]
  | a :: rest, hm, hb => by
    rw [chunks16]
    simp only [List.length_cons] at hm
    intro b hbmem
    rcases List.mem_cons.mp hbmem with rfl | hmem
    · constructor
      · simp only [List.length_take, List.length_cons]
        omega
      · intro x hx
        exact hb x (List.mem_of_mem_take hx)
    · exact chunks16_valid _
        (by simp only [List.length_drop, List.length_cons]; omega)
        (fun x hx => hb x (List.mem_of_mem_drop hx)) b hmem
termination_by l => l.length
decreasing_by
  simp [List.length_drop]
  omega

/-- Helper: chunking the flattening of 16-byte blocks gives the blocks
back. -/
theorem chunks16_flatten_blocks : ∀ (bs : List (List Nat)),
    (∀ b ∈ bs, b.length = 16) → chunks16 bs.flatten = bs := by
  intro bs
  induction bs with
  | nil => intro _; simp [chunks16]
  | cons b bs ih =>
    intro h
    have hb : b.length = 16 := h b (by simp)
    rw [List.flatten_cons]
    obtain ⟨x, xs, rfl⟩ : ∃ x xs, b = x :: xs := by
      cases b with
      | nil => simp at hb
      | cons x xs => exact ⟨x, xs, rfl⟩
    rw [List.cons_append, chunks16]
    congr 1
    · rw [← List.cons_append, show (16 : Nat) = (x :: xs).length from hb.symm,
        List.take_left]
    · rw [← List.cons_append, show (16 : Nat) = (x :: xs).length from hb.symm,
        List.drop_left]
      exact ih (fun u hu => h u (by simp [hu]))

/-- Helper: the flattening of 16-byte blocks has block-multiple length. -/
theorem flatten_blocks_length : ∀ (bs : List (List Nat)),
    (∀ b ∈ bs, b.length = 16) → bs.flatten.length = 16 * bs.length := by
  intro bs
  induction bs with
  | nil => intro _; simp
  | cons b bs ih =>
    intro h
    simp only [List.flatten_cons, List.length_append, List.length_cons,
      h b (by simp), ih (fun u hu => h u (by simp [hu]))]
    ring

/-- Helper: bytes of flattened valid blocks are bytes. -/
theorem flatten_blocks_bounds (bs : List (List Nat))
    (h : ∀ b ∈ bs, ∀ x ∈ b, x < 256) : ∀ x ∈ bs.flatten, x < 256 := by
  intro x hx
  obtain ⟨b, hb, hxb⟩ := List.mem_flatten.mp hx
  exact h b hb x hxb

/-- Helper: CBC ciphertext blocks of valid plaintext blocks are valid. -/
theorem cbcEncrypt_blocks_valid (C : BlockCipher) (hC : C.Valid) :
    ∀ (ps : List (List Nat)) (prev : List Nat), ValidBlock prev →
      (∀ p ∈ ps, ValidBlock p) → ∀ b ∈ cbcEncrypt C prev ps, ValidBlock b
  | [], _, _, _ => by simp [cbcEncrypt]
  | p :: ps, prev, hprev, hps => by
    simp only [cbcEncrypt]
    intro b hb
    have hcv : ValidBlock (C.enc (xorBytes prev p)) :=
      hC.1 _ (validBlock_xorBytes hprev (hps p (by simp)))
    rcases List.mem_cons.mp hb with rfl | hmem
    · exact hcv
    · exact cbcEncrypt_blocks_valid C hC ps _ hcv
        (fun u hu => hps u (by simp [hu])) b hmem

/-- Helper: CBC preserves the number of blocks. -/
theorem cbcEncrypt_length (C : BlockCipher) :
    ∀ (ps : List (List Nat)) (prev : List Nat),
      (cbcEncrypt C prev ps).length = ps.length
  | [], _ => rfl
  | p :: ps, prev => by
    simp only [cbcEncrypt, List.length_cons, cbcEncrypt_length C ps]

/-- Helper: CBC decryption with the matching chaining value inverts CBC
encryption. -/
theorem cbcDecrypt_cbcEncrypt (C : BlockCipher) (hC : C.Valid) :
    ∀ (ps : List (List Nat)) (prev : List Nat), ValidBlock prev →
      (∀ p ∈ ps, ValidBlock p) →
      cbcDecrypt C prev (cbcEncrypt C prev ps) = ps
  | [], _, _, _ => rfl
  | p :: ps, prev, hprev, hps => by
    simp only [cbcEncrypt, cbcDecrypt]
    have hvp : ValidBlock p := hps p (by simp)
    have hx : ValidBlock (xorBytes prev p) := validBlock_xorBytes hprev hvp
    rw [hC.2 _ hx, xorBytes_cancel prev p (by rw [hprev.1, hvp.1]),
      cbcDecrypt_cbcEncrypt C hC ps _ (hC.1 _ hx)
        (fun u hu => hps u (by simp [hu]))]

/-- Helper: the last byte of a padded string is the pad length. -/
theorem getLast?_replicate_pos {a n : Nat} (h : 0 < n) :
    (List.replicate n a).getLast? = some a := by
  match n, h with
  | n + 1, _ =>
    rw [List.replicate_succ']
    exact List.getLast?_concat _

/-- Helper: the last byte of `pad16 data` is `16 - len % 16`. -/
theorem pad16_getLast (data : List Nat) :
    (pad16 data).getLast? = some (16 - data.length % 16) := by
  unfold pad16
  rw [List.getLast?_append, getLast?_replicate_pos (by omega)]
  rfl

/-- Helper: the padded length. -/
theorem pad16_length (data : List Nat) :
    (pad16 data).length = data.length + (16 - data.length % 16) := by
  simp [pad16]

/-- Helper: PKCS#7 unpadding inverts padding. -/
theorem unpad16_pad16 (data : List Nat) : unpad16 (pad16 data) = data := by
  have hlast := pad16_getLast data
  have hlen := pad16_length data
  have hidx : (pad16 data).length - (16 - data.length % 16) = data.length := by
    omega
  unfold unpad16
  rw [hlast]
  dsimp only
  have hcond : 1 ≤ 16 - data.length % 16 ∧ 16 - data.length % 16 ≤ 16 ∧
      16 - data.length % 16 ≤ (pad16 data).length ∧
      ((pad16 data).drop ((pad16 data).length - (16 - data.length % 16))).all
        (fun x => x = (16 - data.length % 16)) = true := by
    refine ⟨by omega, by omega, by omega, ?_⟩
    rw [hidx]
    conv_lhs => rw [pad16]
    rw [List.drop_left]
    simp [List.all_eq_true, List.mem_replicate]
  rw [if_pos hcond, hidx]
  conv_lhs => rw [pad16]
  exact List.take_left data _

/-- Helper: every byte of `pad16 data` is a byte when the input bytes
are. -/
theorem pad16_bounds (data : List Nat) (h : ∀ x ∈ data, x < 256) :
    ∀ x ∈ pad16 data, x < 256 := by
  intro x hx
  rcases List.mem_append.mp hx with hm | hm
  · exact h x hm
  · have := (List.mem_replicate.mp hm).2
    omega

/-- Helper: the padded length is block-aligned. -/
theorem pad16_length_mod (data : List Nat) : (pad16 data).length % 16 = 0 := by
  rw [pad16_length]
  omega

/-- Helper: the padded string is never empty. -/
theorem pad16_ne_nil (data : List Nat) : pad16 data ≠ [] := by
  unfold pad16
  intro h
  have h2 := (List.append_eq_nil.mp h).2
  have h3 := (List.replicate_eq_nil_iff _).mp h2
  omega

/-- Helper: chunking a non-empty byte string yields at least one block. -/
theorem chunks16_ne_nil {l : List Nat} (h : l ≠ []) : chunks16 l ≠ [] := by
  match l, h with
  | a :: rest, _ =>
    rw [chunks16]
    simp

/-- Helper: if xor-ing with `a` undoes xor-ing with `b` on some block,
then `a = b` (used to show a wrong IV necessarily corrupts the first
block). -/
theorem xorBytes_eq_imp_eq : ∀ (a b c : List Nat), a.length = c.length →
    b.length = c.length → xorBytes a (xorBytes b c) = c → a = b
  | [], [], [], _, _, _ => rfl
  | [], _, _ :: _, ha, _, _ => by simp at ha
  | _ :: _, _, [], ha, _, _ => by simp at ha
  | _ :: _, [], _ :: _, _, hb, _ => by simp at hb
  | [], _ :: _, [], _, hb, _ => by simp at hb
  | x :: xs, y :: ys, z :: zs, ha, hb, h => by
    simp only [xorBytes, List.zipWith_cons_cons, List.cons.injEq] at h
    obtain ⟨h1, h2⟩ := h
    have hxy : x = y := by
      have hz := congrArg (fun t => t ^^^ z) h1
      simp only at hz
      rw [Nat.xor_assoc, Nat.xor_assoc, Nat.xor_self, Nat.xor_zero] at hz
      exact Nat.xor_eq_zero.mp hz
    rw [hxy, xorBytes_eq_imp_eq xs ys zs (by simpa using ha) (by simpa using hb)
      (by simpa [xorBytes] using h2)]

/-- Helper: full round-trip of the `EncryptionUtils` pipeline for any
valid block cipher, non-empty key and valid IV. -/
theorem encrypt_then_decrypt (C : BlockCipher) (hC : C.Valid)
    (key iv : List Nat) (hkey : key ≠ []) (hiv : ValidBlock iv)
    (data : List Nat) (hdata : ∀ x ∈ data, x < 256) :
    EncryptionUtils.decrypt C ⟨key, iv⟩
      (EncryptionUtils.encrypt C ⟨key, iv⟩ data) = data := by
  have hivne : iv ≠ [] := by
    intro h
    rw [h] at hiv
    simp [ValidBlock] at hiv
  by_cases hd : data = []
  · subst hd
    simp [EncryptionUtils.encrypt, EncryptionUtils.decrypt]
  · have hpbv : ∀ b ∈ chunks16 (pad16 data), ValidBlock b :=
      chunks16_valid _ (pad16_length_mod data) (pad16_bounds data hdata)
    have hcbv : ∀ b ∈ cbcEncrypt C iv (chunks16 (pad16 data)), ValidBlock b :=
      cbcEncrypt_blocks_valid C hC _ iv hiv hpbv
    have hflatlen : (cbcEncrypt C iv (chunks16 (pad16 data))).flatten.length =
        16 * (cbcEncrypt C iv (chunks16 (pad16 data))).length :=
      flatten_blocks_length _ (fun b hb => (hcbv b hb).1)
    have hflatb : ∀ x ∈ (cbcEncrypt C iv (chunks16 (pad16 data))).flatten,
        x < 256 :=
      flatten_blocks_bounds _ (fun b hb => (hcbv b hb).2)
    have hcbne : cbcEncrypt C iv (chunks16 (pad16 data)) ≠ [] := by
      have h1 := cbcEncrypt_length C (chunks16 (pad16 data)) iv
      have h2 := chunks16_ne_nil (pad16_ne_nil data)
      intro h
      rw [h] at h1
      exact h2 (List.length_eq_zero.mp h1.symm)
    have hflatne : (cbcEncrypt C iv (chunks16 (pad16 data))).flatten ≠ [] := by
      intro h
      apply hcbne
      apply List.length_eq_zero.mp
      have hL := hflatlen
      rw [h] at hL
      simp only [List.length_nil] at hL
      omega
    have hguard : ¬((⟨key, iv⟩ : EncState).key = [] ∨
        (⟨key, iv⟩ : EncState).iv = []) := fun h => h.elim hkey hivne
    have henc : EncryptionUtils.encrypt C ⟨key, iv⟩ data =
        b64EncodeChunks (cbcEncrypt C iv (chunks16 (pad16 data))).flatten := by
      simp only [EncryptionUtils.encrypt]
      rw [if_neg hd, if_neg hguard]
    rw [henc]
    simp only [EncryptionUtils.decrypt]
    rw [if_neg (b64EncodeChunks_ne_nil _ hflatne), if_neg hguard,
      b64_roundtrip _ hflatb,
      if_neg (fun h => h.elim hflatne (fun hm => hm (by rw [hflatlen]; omega))),
      chunks16_flatten_blocks _ (fun b hb => (hcbv b hb).1),
      cbcDecrypt_cbcEncrypt C hC _ iv hiv hpbv,
      chunks16_flatten_self (pad16 data)]
    exact unpad16_pad16 data

/-- Helper: decrypting data encrypted under `iv1` with a different IV
`iv2` passes the PKCS#7 padding check (only the first block decrypts
wrongly) and silently returns a non-empty corrupted plaintext. -/
theorem decrypt_wrong_iv (C : BlockCipher) (hC : C.Valid)
    (key iv1 iv2 : List Nat) (hkey : key ≠ [])
    (hiv1 : ValidBlock iv1) (hiv2 : ValidBlock iv2) (hne : iv1 ≠ iv2)
    (data : List Nat) (hlen16 : 16 ≤ data.length)
    (hdata : ∀ x ∈ data, x < 256) :
    EncryptionUtils.decrypt C ⟨key, iv2⟩
        (EncryptionUtils.encrypt C ⟨key, iv1⟩ data) ≠ [] ∧
    EncryptionUtils.decrypt C ⟨key, iv2⟩
        (EncryptionUtils.encrypt C ⟨key, iv1⟩ data) ≠ data := by
  have hd : data ≠ [] := by
    intro h
    rw [h] at hlen16
    simp at hlen16
  have hiv1ne : iv1 ≠ [] := by
    intro h
    rw [h] at hiv1
    simp [ValidBlock] at hiv1
  have hiv2ne : iv2 ≠ [] := by
    intro h
    rw [h] at hiv2
    simp [ValidBlock] at hiv2
  have hpadlen := pad16_length data
  have hpadL : 32 ≤ (pad16 data).length := by
    rw [hpadlen]
    omega
  have hpadne : pad16 data ≠ [] := pad16_ne_nil data
  -- block decomposition of the padded plaintext
  have hpb : chunks16 (pad16 data) =
      (pad16 data).take 16 :: chunks16 ((pad16 data).drop 16) := by
    obtain ⟨a, rest, hpr⟩ : ∃ a rest, pad16 data = a :: rest := by
      cases hpd : pad16 data with
      | nil => exact absurd hpd hpadne
      | cons a rest => exact ⟨a, rest, rfl⟩
    rw [hpr, chunks16]
  have hpbv : ∀ b ∈ chunks16 (pad16 data), ValidBlock b :=
    chunks16_valid _ (pad16_length_mod data) (pad16_bounds data hdata)
  have hB1v : ValidBlock ((pad16 data).take 16) := by
    apply hpbv
    rw [hpb]
    simp
  have htbv : ∀ b ∈ chunks16 ((pad16 data).drop 16), ValidBlock b := by
    intro b hb
    apply hpbv
    rw [hpb]
    simp [hb]
  have htbflat : (chunks16 ((pad16 data).drop 16)).flatten =
      (pad16 data).drop 16 := chunks16_flatten_self _
  -- the ciphertext blocks
  have hcb : cbcEncrypt C iv1 (chunks16 (pad16 data)) =
      C.enc (xorBytes iv1 ((pad16 data).take 16)) ::
        cbcEncrypt C (C.enc (xorBytes iv1 ((pad16 data).take 16)))
          (chunks16 ((pad16 data).drop 16)) := by
    rw [hpb]
    simp only [cbcEncrypt]
  have hc1v : ValidBlock (C.enc (xorBytes iv1 ((pad16 data).take 16))) :=
    hC.1 _ (validBlock_xorBytes hiv1 hB1v)
  have hcbv : ∀ b ∈ cbcEncrypt C iv1 (chunks16 (pad16 data)), ValidBlock b :=
    cbcEncrypt_blocks_valid C hC _ iv1 hiv1 hpbv
  have hflatb : ∀ x ∈ (cbcEncrypt C iv1 (chunks16 (pad16 data))).flatten, x < 256 :=
    flatten_blocks_bounds _ (fun b hb => (hcbv b hb).2)
  have hflatlen : (cbcEncrypt C iv1 (chunks16 (pad16 data))).flatten.length =
      16 * (cbcEncrypt C iv1 (chunks16 (pad16 data))).length :=
    flatten_blocks_length _ (fun b hb => (hcbv b hb).1)
  have hflatne : (cbcEncrypt C iv1 (chunks16 (pad16 data))).flatten ≠ [] := by
    intro h
    have hL := hflatlen
    rw [h, hcb] at hL
    simp only [List.length_nil, List.length_cons] at hL
    omega
  -- encryption under iv1
  have henc : EncryptionUtils.encrypt C ⟨key, iv1⟩ data =
      b64EncodeChunks (cbcEncrypt C iv1 (chunks16 (pad16 data))).flatten := by
    simp only [EncryptionUtils.encrypt]
    rw [if_neg hd, if_neg (fun h => h.elim hkey hiv1ne)]
  -- decryption under iv2 reduces to unpadding the corrupted bytes
  have hdecblocks : cbcDecrypt C iv2 (cbcEncrypt C iv1 (chunks16 (pad16 data))) =
      xorBytes iv2 (xorBytes iv1 ((pad16 data).take 16)) ::
        chunks16 ((pad16 data).drop 16) := by
    rw [hcb]
    simp only [cbcDecrypt]
    rw [hC.2 _ (validBlock_xorBytes hiv1 hB1v),
      cbcDecrypt_cbcEncrypt C hC _ _ hc1v htbv]
  have hdec : EncryptionUtils.decrypt C ⟨key, iv2⟩
      (EncryptionUtils.encrypt C ⟨key, iv1⟩ data) =
      unpad16 (xorBytes iv2 (xorBytes iv1 ((pad16 data).take 16)) ++
        (pad16 data).drop 16) := by
    rw [henc]
    simp only [EncryptionUtils.decrypt]
    rw [if_neg (b64EncodeChunks_ne_nil _ hflatne),
      if_neg (fun h => h.elim hkey hiv2ne),
      b64_roundtrip _ hflatb,
      if_neg (fun h => h.elim hflatne (fun hm => hm (by rw [hflatlen]; omega))),
      chunks16_flatten_blocks _ (fun b hb => (hcbv b hb).1),
      hdecblocks]
    simp only [List.flatten_cons, htbflat]
  -- evaluate the unpadding of the corrupted byte string
  have hB1len : ((pad16 data).take 16).length = 16 := by
    simp only [List.length_take]
    omega
  have hB1'v : ValidBlock (xorBytes iv2 (xorBytes iv1 ((pad16 data).take 16))) :=
    validBlock_xorBytes hiv2 (validBlock_xorBytes hiv1 hB1v)
  have hDlen : ((pad16 data).drop 16).length = (pad16 data).length - 16 := by
    simp [List.length_drop]
  have hDne : (pad16 data).drop 16 ≠ [] := by
    intro h
    have := congrArg List.length h
    rw [hDlen] at this
    simp at this
    omega
  have hplast := pad16_getLast data
  have hDlast : ((pad16 data).drop 16).getLast? = some (16 - data.length % 16) := by
    obtain ⟨dd, hdd⟩ : ∃ dd, ((pad16 data).drop 16).getLast? = some dd := by
      cases hD : ((pad16 data).drop 16).getLast? with
      | none => exact absurd (List.getLast?_eq_none_iff.mp hD) hDne
      | some dd => exact ⟨dd, rfl⟩
    have hsplit : pad16 data = (pad16 data).take 16 ++ (pad16 data).drop 16 :=
      (List.take_append_drop 16 (pad16 data)).symm
    rw [hsplit, List.getLast?_append, hdd, Option.or_some] at hplast
    rw [hdd, hplast]
  have hRlast : (xorBytes iv2 (xorBytes iv1 ((pad16 data).take 16)) ++
      (pad16 data).drop 16).getLast? = some (16 - data.length % 16) := by
    rw [List.getLast?_append, hDlast, Option.or_some]
  have hRlen : (xorBytes iv2 (xorBytes iv1 ((pad16 data).take 16)) ++
      (pad16 data).drop 16).length = (pad16 data).length := by
    rw [List.length_append, hB1'v.1, hDlen]
    omega
  -- the pad run sits entirely inside the unchanged tail
  have hdropR : (xorBytes iv2 (xorBytes iv1 ((pad16 data).take 16)) ++
        (pad16 data).drop 16).drop
        ((pad16 data).length - (16 - data.length % 16)) =
      List.replicate (16 - data.length % 16) (16 - data.length % 16) := by
    have hsplitlen : (pad16 data).length - (16 - data.length % 16) =
        (xorBytes iv2 (xorBytes iv1 ((pad16 data).take 16))).length +
          (data.length - 16) := by
      rw [hB1'v.1, hpadlen]
      omega
    rw [hsplitlen, List.drop_append, List.drop_drop]
    have h16 : 16 + (data.length - 16) = data.length := by omega
    rw [h16]
    conv_lhs => rw [pad16]
    rw [List.drop_left]
  have htakeR : (xorBytes iv2 (xorBytes iv1 ((pad16 data).take 16)) ++
        (pad16 data).drop 16).take
        ((pad16 data).length - (16 - data.length % 16)) =
      xorBytes iv2 (xorBytes iv1 ((pad16 data).take 16)) ++
        ((pad16 data).drop 16).take (data.length - 16) := by
    have hsplitlen : (pad16 data).length - (16 - data.length % 16) =
        (xorBytes iv2 (xorBytes iv1 ((pad16 data).take 16))).length +
          (data.length - 16) := by
      rw [hB1'v.1, hpadlen]
      omega
    rw [hsplitlen, List.take_append]
  have hunpad : unpad16 (xorBytes iv2 (xorBytes iv1 ((pad16 data).take 16)) ++
      (pad16 data).drop 16) =
      xorBytes iv2 (xorBytes iv1 ((pad16 data).take 16)) ++
        ((pad16 data).drop 16).take (data.length - 16) := by
    unfold unpad16
    rw [hRlast]
    dsimp only
    rw [hRlen]
    split_ifs with hcond
    · exact htakeR
    · exfalso
      apply hcond
      refine ⟨by omega, by omega, by omega, ?_⟩
      rw [hdropR]
      simp [List.all_eq_true, List.mem_replicate]
  -- the corrupted first block differs from the original
  have hB1ne : xorBytes iv2 (xorBytes iv1 ((pad16 data).take 16)) ≠
      (pad16 data).take 16 := by
    intro hEq
    exact hne (xorBytes_eq_imp_eq iv2 iv1 ((pad16 data).take 16)
      (by rw [hiv2.1, hB1len]) (by rw [hiv1.1, hB1len]) hEq).symm
  have hB1data : (pad16 data).take 16 = data.take 16 := by
    conv_lhs => rw [pad16]
    exact List.take_append_of_le_length hlen16
  constructor
  · rw [hdec, hunpad]
    intro h
    have hL := congrArg List.length h
    rw [List.length_append, hB1'v.1] at hL
    simp at hL
  · rw [hdec, hunpad]
    intro h
    apply hB1ne
    have htk := congrArg (List.take 16) h
    rw [List.take_append_of_le_length (le_of_eq hB1'v.1.symm),
      List.take_of_length_le (le_of_eq hB1'v.1)] at htk
    rw [htk]
    exact hB1data.symm

/-- C8 counterexample: decryption under a mismatched IV (same key) does
not fail distinctly.  With a valid stand-in for the keyed AES block
permutation, key `7×32`, zero IV for encryption and an IV differing in its
first byte for decryption, and the 17-byte plaintext `'A'×17`, the
decrypt call returns a non-empty result different from the plaintext —
silently corrupted output, not the empty failure result the claim
requires.  (Only the first CBC block is affected by the IV, so the PKCS#7
padding in the last block still verifies.) -/
theorem decrypt_mismatched_iv_counterexample :
    EncryptionUtils.decrypt ⟨fun b => b, fun b => b⟩
        ⟨List.replicate 32 7, 1 :: List.replicate 15 0⟩
        (EncryptionUtils.encrypt ⟨fun b => b, fun b => b⟩
          ⟨List.replicate 32 7, List.replicate 16 0⟩ (List.replicate 17 65)) ≠ [] ∧
    EncryptionUtils.decrypt ⟨fun b => b, fun b => b⟩
        ⟨List.replicate 32 7, 1 :: List.replicate 15 0⟩
        (EncryptionUtils.encrypt ⟨fun b => b, fun b => b⟩
          ⟨List.replicate 32 7, List.replicate 16 0⟩ (List.replicate 17 65)) ≠
      List.replicate 17 65 :=
  decrypt_wrong_iv ⟨fun b => b, fun b => b⟩ ⟨fun _ hb => hb, fun _ _ => rfl⟩
    (List.replicate 32 7) (List.replicate 16 0) (1 :: List.replicate 15 0)
    (by decide) ⟨by decide, by decide⟩ ⟨by decide, by decide⟩ (by decide)
    (List.replicate 17 65) (by decide) (by decide)

/-- C8 amended: with a constant valid key and IV loaded,
`decrypt(encrypt(s)) = s` holds for every byte string `s` (including the
empty string, where both sides are the empty failure value).  Decrypting
data produced under a mismatched key/IV fails — returns the empty result —
only when the PKCS#7 padding of the mis-decrypted bytes is invalid; a
mismatched IV with the matching key always passes the padding check (only
the first CBC block is affected) and silently returns non-empty corrupted
plaintext rather than a failure. -/
theorem encryption_roundtrip_and_mismatch_contract :
    (∀ (C : BlockCipher), C.Valid → ∀ (key iv : List Nat), key ≠ [] →
      ValidBlock iv → ∀ (data : List Nat), (∀ x ∈ data, x < 256) →
      EncryptionUtils.decrypt C ⟨key, iv⟩
        (EncryptionUtils.encrypt C ⟨key, iv⟩ data) = data) ∧
    (∀ (C : BlockCipher), C.Valid → ∀ (key iv1 iv2 : List Nat), key ≠ [] →
      ValidBlock iv1 → ValidBlock iv2 → iv1 ≠ iv2 →
      ∀ (data : List Nat), 16 ≤ data.length → (∀ x ∈ data, x < 256) →
      EncryptionUtils.decrypt C ⟨key, iv2⟩
          (EncryptionUtils.encrypt C ⟨key, iv1⟩ data) ≠ [] ∧
      EncryptionUtils.decrypt C ⟨key, iv2⟩
          (EncryptionUtils.encrypt C ⟨key, iv1⟩ data) ≠ data) :=
  ⟨fun C hC key iv hk hiv data hd =>
      encrypt_then_decrypt C hC key iv hk hiv data hd,
   fun C hC key iv1 iv2 hk h1 h2 hne data hl hd =>
      decrypt_wrong_iv C hC key iv1 iv2 hk h1 h2 hne data hl hd⟩

/-- Witness for the C8 amended theorem: the round-trip at the bytes of
"Hi" and the IV-mismatch corruption at a 17-byte message, under a concrete
valid cipher, key and IVs. -/
theorem encryption_roundtrip_and_mismatch_contract_witness :
    EncryptionUtils.decrypt ⟨fun b => b, fun b => b⟩
        ⟨List.replicate 32 7, List.replicate 16 0⟩
        (EncryptionUtils.encrypt ⟨fun b => b, fun b => b⟩
          ⟨List.replicate 32 7, List.replicate 16 0⟩ [72, 105]) = [72, 105] ∧
    (EncryptionUtils.decrypt ⟨fun b => b, fun b => b⟩
        ⟨List.replicate 32 7, 1 :: List.replicate 15 0⟩
        (EncryptionUtils.encrypt ⟨fun b => b, fun b => b⟩
          ⟨List.replicate 32 7, List.replicate 16 0⟩
          (List.replicate 17 65)) ≠ [] ∧
      EncryptionUtils.decrypt ⟨fun b => b, fun b => b⟩
        ⟨List.replicate 32 7, 1 :: List.replicate 15 0⟩
        (EncryptionUtils.encrypt ⟨fun b => b, fun b => b⟩
          ⟨List.replicate 32 7, List.replicate 16 0⟩
          (List.replicate 17 65)) ≠ List.replicate 17 65) :=
  ⟨encryption_roundtrip_and_mismatch_contract.1 ⟨fun b => b, fun b => b⟩
      ⟨fun _ hb => hb, fun _ _ => rfl⟩ (List.replicate 32 7)
      (List.replicate 16 0) (by decide) ⟨by decide, by decide⟩
      [72, 105] (by decide),
   encryption_roundtrip_and_mismatch_contract.2 ⟨fun b => b, fun b => b⟩
      ⟨fun _ hb => hb, fun _ _ => rfl⟩ (List.replicate 32 7)
      (List.replicate 16 0) (1 :: List.replicate 15 0) (by decide)
      ⟨by decide, by decide⟩ ⟨by decide, by decide⟩ (by decide)
      (List.replicate 17 65) (by decide) (by decide)⟩

/-- Helper: the clamped frequency is always at least 1 (non-numeric and
non-positive settings become the default 10). -/
theorem clampFreq_pos (s : String) : 0 < clampFreq s := by
  unfold clampFreq
  split <;> omega

/-- Helper: in a deliverable environment `sendAlert` reduces to the
rate-limit decision on the pruned window. -/
theorem sendAlert_eq_of_deliverable (env : AlertEnv) (st : AlertState)
    (now : Nat) (fs msg : String) (h : env.Deliverable) :
    Alert.sendAlert env st now fs msg =
      if ((st.prune now).length : Int) < clampFreq fs then
        ⟨true, env.deliveredCount, ⟨st.prune now ++ [now]⟩⟩
      else ⟨false, 0, ⟨st.prune now⟩⟩ := by
  obtain ⟨hcli, hdb, hus, hvc, hdel⟩ := h
  simp only [Alert.sendAlert]
  rw [if_neg (fun hc => hcli.elim (fun h1 => hc.1 h1) (fun h1 => hc.2 h1)),
    if_neg (fun hn => hn hdb), if_neg hus, if_neg (fun hn => hn hvc)]
  split_ifs with h1
  · rfl
  · rfl

/-- Helper: filtering a replicated list where the element passes keeps
everything. -/
theorem filter_replicate_pos {p : Nat → Bool} {a : Nat} (h : p a = true)
    (n : Nat) : (List.replicate n a).filter p = List.replicate n a := by
  induction n with
  | zero => rfl
  | succ n ih => simp [List.replicate_succ, h, ih]

/-- Helper: filtering a replicated list where the element fails drops
everything. -/
theorem filter_replicate_neg {p : Nat → Bool} {a : Nat} (h : p a = false)
    (n : Nat) : (List.replicate n a).filter p = [] := by
  induction n with
  | zero => rfl
  | succ n ih => simp [List.replicate_succ, h, ih]

/-- Helper: burst behaviour of `sendAlert` starting from a window of `j`
fresh timestamps: each call under the cap succeeds and appends one
timestamp, calls at the cap are dropped. -/
theorem sendBurst_replicate (env : AlertEnv) (now : Nat) (fs msg : String)
    (h : env.Deliverable) :
    ∀ (m j : Nat), (j : Int) ≤ clampFreq fs →
      (Alert.sendBurst env now fs msg m ⟨List.replicate j now⟩).1 =
          min m ((clampFreq fs - j).toNat) ∧
      (Alert.sendBurst env now fs msg m ⟨List.replicate j now⟩).2 =
        ⟨List.replicate (min (j + m) (clampFreq fs).toNat) now⟩ := by
  intro m
  induction m with
  | zero =>
    intro j hj
    have hpos := clampFreq_pos fs
    constructor
    · simp [Alert.sendBurst]
    · have h2 : min (j + 0) (clampFreq fs).toNat = j := by omega
      simp only [Alert.sendBurst, h2]
  | succ m ih =>
    intro j hj
    have hpos := clampFreq_pos fs
    have hprune : AlertState.prune ⟨List.replicate j now⟩ now =
        List.replicate j now := by
      unfold AlertState.prune
      exact filter_replicate_pos (by simp) j
    have hsend := sendAlert_eq_of_deliverable env ⟨List.replicate j now⟩ now fs msg h
    rw [hprune, List.length_replicate] at hsend
    by_cases hlt : (j : Int) < clampFreq fs
    · rw [if_pos hlt] at hsend
      have hstep : List.replicate j now ++ [now] = List.replicate (j + 1) now :=
        (List.replicate_succ' j now).symm
      rw [hstep] at hsend
      obtain ⟨ih1, ih2⟩ := ih (j + 1) (by omega)
      constructor
      · simp [Alert.sendBurst, hsend, ih1]
        omega
      · have e : j + 1 + m = j + (m + 1) := by omega
        simp [Alert.sendBurst, hsend, ih2, e]
    · rw [if_neg hlt] at hsend
      obtain ⟨ih1, ih2⟩ := ih j hj
      constructor
      · simp [Alert.sendBurst, hsend, ih1]
        omega
      · have e1 : min (j + m) (clampFreq fs).toNat = (clampFreq fs).toNat := by
          omega
        have e2 : min (j + (m + 1)) (clampFreq fs).toNat = (clampFreq fs).toNat := by
          omega
        simp [Alert.sendBurst, hsend, ih2, e1, e2]

/-- C6: `sendAlert` returns true iff at least one channel delivery
succeeded in this call; a timestamp is recorded in the sliding one-hour
window exactly when the call succeeded (failed or dropped attempts never
add one); with a numeric frequency N > 0 and a burst of N + k calls at one
instant in a deliverable environment, exactly the first N are sent and the
k excess calls are dropped; and timestamps older than one hour are pruned,
so capacity frees up no matter how full the window was. -/
theorem sendAlert_rate_limit_contract (env : AlertEnv) (st : AlertState)
    (now : Nat) (fs msg : String) :
    ((Alert.sendAlert env st now fs msg).sent = true ↔
      0 < (Alert.sendAlert env st now fs msg).delivered) ∧
    ((Alert.sendAlert env st now fs msg).sent = true →
      (Alert.sendAlert env st now fs msg).state.timestamps =
        st.prune now ++ [now]) ∧
    ((Alert.sendAlert env st now fs msg).sent = false →
      (Alert.sendAlert env st now fs msg).state.timestamps = st.timestamps ∨
      (Alert.sendAlert env st now fs msg).state.timestamps = st.prune now) ∧
    (∀ N kk : Nat, env.Deliverable → qstringToInt fs = (N : Int) → 0 < N →
      Alert.sendBurst env now fs msg (N + kk) ⟨[]⟩ =
        (N, ⟨List.replicate N now⟩)) ∧
    (∀ (n t now2 : Nat), env.Deliverable → t < now2 - 3600 →
      (Alert.sendAlert env ⟨List.replicate n t⟩ now2 fs msg).sent = true) := by
  refine ⟨?_, ?_, ?_, ?_, ?_⟩
  · simp only [Alert.sendAlert]
    split_ifs <;> (simp_all; try omega)
  · simp only [Alert.sendAlert]
    split_ifs <;> simp_all
  · simp only [Alert.sendAlert]
    split_ifs <;> simp_all
  · intro N kk hdel hparse hNpos
    have hclamp : clampFreq fs = (N : Int) := by
      unfold clampFreq
      rw [hparse, if_neg (by omega)]
    obtain ⟨hb1, hb2⟩ := sendBurst_replicate env now fs msg hdel (N + kk) 0
      (by rw [hclamp]; omega)
    rw [hclamp] at hb1 hb2
    simp only [List.replicate_zero] at hb1 hb2
    refine Prod.ext ?_ ?_
    · rw [hb1]
      omega
    · rw [hb2]
      have h2 : min (0 + (N + kk)) ((N : Int)).toNat = N := by omega
      rw [h2]
  · intro n t now2 hdel hage
    rw [sendAlert_eq_of_deliverable env _ now2 fs msg hdel]
    have hpr : AlertState.prune ⟨List.replicate n t⟩ now2 = [] := by
      unfold AlertState.prune
      exact filter_replicate_neg (by simp [hage]) n
    rw [if_pos (by rw [hpr]; simpa using clampFreq_pos fs)]

/-- Witness for C6 in a deliverable environment: frequency "2", a burst of
3 sends exactly 2; a full window of 5 stale timestamps is pruned and the
next call is sent. -/
theorem sendAlert_rate_limit_contract_witness :
    Alert.sendBurst
      ⟨true, true, true, [⟨"user@example.com", ""⟩], fun _ => true, fun _ => true⟩
      7200 "2" "m" (2 + 1) ⟨[]⟩ = (2, ⟨List.replicate 2 7200⟩) ∧
    (Alert.sendAlert
      ⟨true, true, true, [⟨"user@example.com", ""⟩], fun _ => true, fun _ => true⟩
      ⟨List.replicate 5 100⟩ 7200 "2" "m").sent = true := by
  have hdel : AlertEnv.Deliverable
      ⟨true, true, true, [⟨"user@example.com", ""⟩], fun _ => true, fun _ => true⟩ :=
    ⟨Or.inl rfl, rfl, by decide, by decide, by decide⟩
  exact ⟨(sendAlert_rate_limit_contract _ ⟨[]⟩ 7200 "2" "m").2.2.2.1 2 1 hdel
      (by decide) (by decide),
    (sendAlert_rate_limit_contract _ ⟨[]⟩ 7200 "2" "m").2.2.2.2 5 100 7200 hdel
      (by decide)⟩

/-- C9: calling `setValue` (the accept operation) with a value equal to the
cached current value is a complete no-op on both platforms: the item state,
the external resource, the write flag and the emitted log messages are all
unchanged — the body is guarded by `m_value != value`. -/
theorem setValue_self_noop : ∀ (k : RegistryKey) (p : PlistFile) (st su : ExternalStore),
    k.setValue st k.value = ⟨k, st, false, false⟩ ∧
    p.setValue su p.value = ⟨p, su, false, [], false⟩ := by
  intro k p st su
  constructor
  · simp [RegistryKey.setValue]
  · simp [PlistFile.setValue]

/-- C10: `startMonitoring` on a running instance and `stopMonitoring` on a
stopped instance change nothing (no timer action, no `statusChanged`
signal); the flag, timer and signal list change exactly on the
Stopped-to-Running and Running-to-Stopped transitions. -/
theorem startMonitoring_stopMonitoring_idempotent :
    ∀ (t : Bool) (sig : List String),
    MonitoringControl.startMonitoring ⟨true, t, sig⟩ = ⟨true, t, sig⟩ ∧
    MonitoringControl.stopMonitoring ⟨false, t, sig⟩ = ⟨false, t, sig⟩ ∧
    MonitoringControl.startMonitoring ⟨false, t, sig⟩ =
      ⟨true, true, sig ++ ["Monitoring started"]⟩ ∧
    MonitoringControl.stopMonitoring ⟨true, t, sig⟩ =
      ⟨false, false, sig ++ ["Monitoring stopped"]⟩ := by
  intro t sig
  refine ⟨?_, ?_, ?_, ?_⟩ <;>
    simp [MonitoringControl.startMonitoring, MonitoringControl.stopMonitoring]

end Monitor
